import Mathlib

/-!
Verification of the structural type-introspection and document-serialization
subsystem of ForSyDe-SystemC (src/forsyde/types.hpp).

The C++ code registers type descriptors in a process-wide XML document
(rapidxml) and flushes it to a file.  The shallow embedding below mirrors the
source:

* `get_type_name` embeds the `get_type_name<T>` template: the fourteen
  `DEFINE_TYPE` specializations return fixed literals; every other type falls
  back to `typeid(T).name()`, modelled as the environment function `rttiName`.
* `add_type_node` / `traverse_tuple` embed the `IntrospectiveType` member
  templates of the same names; the generic case of `add_type_node` emits a
  "primitive" element for any type that is neither a `Vector` nor a `Tuple`.
* `traverse` embeds `IntrospectiveType::traverse`: scan the root's children
  for an entry whose "name" attribute equals the type's name, otherwise append
  a new "data_type" entry.  In the C++ the comparison is between the stored
  name pointer and the per-type name pointer; each type's name resolves to one
  stable string object (identical strings share one symbol), so the scan is
  embedded as string equality on the attribute value.
* `TypeContainer` embeds the singleton document: its constructor allocates the
  "forsyde_types" root with no children.
* `printXML` embeds `TypeContainer::printXML`: writing to an unopenable
  destination raises `SC_REPORT_ERROR(fileName.c_str(), ...)`, modelled as an
  `Except.error` carrying the path; on success the fixed preamble and the
  rapidxml serialization of the document are written, modelled by `renderDoc`.
  Writability of a path is modelled by a predicate `fs : String → Bool`.
* `size_to_char` / `char_to_size` embed the decimal conversions built on
  `std::to_string` and `istringstream` extraction.
-/

namespace ForSyDe

/-- Primitive kinds covered by the fourteen `DEFINE_TYPE` specializations. -/
inductive PrimKind
  | char | shortInt | ushortInt | int | uint | longInt | ulongInt
  | longLongInt | ulongLongInt | bool | float | double | longDouble | wcharT
deriving DecidableEq, Fintype

/-- Type expressions the registration machinery is instantiated at: the
primitives, `Vector<T>` (`std::vector`), `Tuple<T...>` (`std::tuple`), and an
arbitrary user-defined type outside those shapes, identified by an opaque
index (its static type identity). -/
inductive TypeExpr
  | prim : PrimKind → TypeExpr
  | vector : TypeExpr → TypeExpr
  | tuple : List TypeExpr → TypeExpr
  | other : Nat → TypeExpr

/-- An XML attribute (rapidxml `xml_attribute`): a name and a value. -/
structure XmlAttr where
  name : String
  val : String
deriving DecidableEq

/-- An XML element node (rapidxml `xml_node` of kind `node_element`):
tag name, attributes in append order, children in append order. -/
inductive XmlNode
  | elem : String → List XmlAttr → List XmlNode → XmlNode

/-- Implementation-defined quantities of the host C++ implementation:
the RTTI fallback names (`typeid(T).name()`), the byte sizes of the
primitive types, the byte footprint of the `std::vector` handle (the same
for every element type, independent of length), and the sizes of
user-defined types. -/
structure Env where
  rttiName : TypeExpr → String
  primSize : PrimKind → Nat
  vectorSize : Nat
  otherSize : Nat → Nat

/-- Names returned by the `DEFINE_TYPE(X)` specializations of
`get_type_name<X>`: the stringization `#X` of the type. -/
def primName : PrimKind → String
  | .char => "char"
  | .shortInt => "short int"
  | .ushortInt => "unsigned short int"
  | .int => "int"
  | .uint => "unsigned int"
  | .longInt => "long int"
  | .ulongInt => "unsigned long int"
  | .longLongInt => "long long int"
  | .ulongLongInt => "unsigned long long int"
  | .bool => "bool"
  | .float => "float"
  | .double => "double"
  | .longDouble => "long double"
  | .wcharT => "wchar_t"

/-- Embeds `get_type_name<T>()`: the explicit specializations cover exactly
the fourteen primitives; every other type uses the RTTI fallback
`typeid(T).name()`. -/
def get_type_name (env : Env) : TypeExpr → String
  | .prim p => primName p
  | t => env.rttiName t

/-- Decimal digits of `n`, least significant first, as characters; the
building block of the canonical decimal form produced by `std::to_string`. -/
def decDigitsRev : Nat → List Char
  | n =>
    if _h : n < 10 then [Nat.digitChar n]
    else Nat.digitChar (n % 10) :: decDigitsRev (n / 10)
  decreasing_by exact Nat.div_lt_self (by omega) (by omega)

/-- Embeds `IntrospectiveType::size_to_char`: `std::to_string(size)`, the
canonical decimal representation (most significant digit first, no leading
zeros, "0" for zero). -/
def size_to_char (n : Nat) : String := String.mk (decDigitsRev n).reverse

/-- One step of `istringstream >> size`: consume decimal digits, accumulating
the value, and stop at the first non-digit. -/
def parseSizeLoop : List Char → Nat → Nat
  | [], acc => acc
  | c :: cs, acc =>
      if c.isDigit then parseSizeLoop cs (acc * 10 + (c.toNat - 48)) else acc

/-- Embeds `IntrospectiveType::char_to_size`: extract a `size_t` from the
string with `istringstream`. -/
def char_to_size (s : String) : Nat := parseSizeLoop s.toList 0

mutual
/-- Embeds the `IntrospectiveType::add_type_node<T>` class template, returning
the descriptor node that `get(parent)` appends under `parent`.  The partial
specializations handle `Vector<T>` and `Tuple<T...>`; the generic case (used
for the primitives and for any other type) emits a "primitive" element with
"name" and "size" attributes, in that order. -/
def add_type_node (env : Env) : TypeExpr → XmlNode
  | .vector t =>
      .elem "vector" [⟨"size", size_to_char env.vectorSize⟩]
        [add_type_node env t]
  | .tuple ts =>
      .elem "tuple" [] (traverse_tuple env ts)
  | .prim p =>
      .elem "primitive"
        [⟨"name", primName p⟩, ⟨"size", size_to_char (env.primSize p)⟩] []
  | .other i =>
      .elem "primitive"
        [⟨"name", env.rttiName (.other i)⟩,
         ⟨"size", size_to_char (env.otherSize i)⟩] []

/-- Embeds `IntrospectiveType::traverse_tuple<N, Tuple<Head, Tail...>>`:
append the head component's descriptor, then recurse on the tail.  The C++
primary template has no `get` member, so arity zero never instantiates; the
`[]` equation is therefore never reached from a well-formed instantiation. -/
def traverse_tuple (env : Env) : List TypeExpr → List XmlNode
  | [] => []
  | t :: ts => add_type_node env t :: traverse_tuple env ts
end

/-- Embeds the `TypeContainer` singleton document: the children of the
"forsyde_types" root node allocated by the constructor. -/
structure TypeContainer where
  rootChildren : List XmlNode

/-- Embeds the `TypeContainer` constructor: the freshly allocated document
holds the root node with no children. -/
def TypeContainer.init : TypeContainer := ⟨[]⟩

/-- Embeds rapidxml `xml_node::first_attribute(name)`: the first attribute
with the given name, if any. -/
def first_attribute (n : XmlNode) (anm : String) : Option XmlAttr :=
  match n with
  | .elem _ attrs _ => attrs.find? (fun a => a.name == anm)

/-- Value of a node's first "name" attribute, as read by the dedup scan in
`IntrospectiveType::traverse`. -/
def entryName (n : XmlNode) : Option String :=
  (first_attribute n "name").map XmlAttr.val

/-- Children of a node, in append order. -/
def nodeChildren : XmlNode → List XmlNode
  | .elem _ _ kids => kids

/-- Tag name of a node. -/
def tagOf : XmlNode → String
  | .elem tag _ _ => tag

/-- Does the node carry a "name" attribute? -/
def hasNameAttr (n : XmlNode) : Bool := (first_attribute n "name").isSome

/-- Embeds `IntrospectiveType::traverse<T>()`: compute the type's name, scan
the root's children for an entry whose "name" attribute holds that name and
return early if found; otherwise append a fresh "data_type" entry carrying
the name attribute and the descriptor subtree, and return the name.  The
returned string is paired with the resulting container state. -/
def traverse (env : Env) (t : TypeExpr) (c : TypeContainer) :
    String × TypeContainer :=
  let type_name := get_type_name env t
  match c.rootChildren.find? (fun ch => entryName ch == some type_name) with
  | some _ => (type_name, c)
  | none =>
      (type_name,
       ⟨c.rootChildren ++
        [XmlNode.elem "data_type" [⟨"name", type_name⟩]
          [add_type_node env t]]⟩)

/-- A whole sequence of registrations, in order. -/
def registerAll (env : Env) (ts : List TypeExpr) (c : TypeContainer) :
    TypeContainer :=
  ts.foldl (fun acc t => (traverse env t acc).2) c

/-- The top-level "name" attribute values of the catalog, in entry order. -/
def catalogNames (c : TypeContainer) : List (Option String) :=
  c.rootChildren.map entryName

/-- The fixed textual preamble written by `printXML` before the document. -/
def preamble : String :=
  "<?xml version=\"1.0\" ?>\n<!-- Automatically generated by ForSyDe -->\n"

mutual
/-- Embeds rapidxml's default (indented) printing of an element node: tab
indentation, attributes as ` name="value"`, `<tag .../>` for childless
elements, otherwise the children between open and close tags, one element
per line. -/
def renderNode (ind : Nat) : XmlNode → String
  | .elem tag attrs kids =>
      String.mk (List.replicate ind '\t') ++ "<" ++ tag ++
        String.join (attrs.map (fun a => " " ++ a.name ++ "=\"" ++ a.val ++ "\"")) ++
        (if kids.isEmpty then "/>\n"
         else ">\n" ++ renderList (ind + 1) kids ++
           String.mk (List.replicate ind '\t') ++ "</" ++ tag ++ ">\n")

/-- Serialization of a list of sibling nodes, in order. -/
def renderList (ind : Nat) : List XmlNode → String
  | [] => ""
  | k :: ks => renderNode ind k ++ renderList ind ks
end

/-- The full document text produced by a successful flush: the preamble
followed by the serialization of the "forsyde_types" root and all
registered entries below it. -/
def renderDoc (c : TypeContainer) : String :=
  preamble ++ renderNode 0 (XmlNode.elem "forsyde_types" [] c.rootChildren)

/-- The error raised by `SC_REPORT_ERROR(fileName.c_str(), "file could not
be opened ...")` in `printXML`, carrying the offending path as the report
identifier. -/
def ioErrorMsg (fileName : String) : String :=
  fileName ++
    ": file could not be opened to write the introspection output. Does the path exists?"

/-- Embeds `TypeContainer::printXML(fileName)`: if the destination cannot be
opened for writing, the error names the path; otherwise the preamble and the
document serialization are written.  `fs` models which paths are writable.
The document itself is only read, never modified. -/
def printXML (fs : String → Bool) (fileName : String) (c : TypeContainer) :
    Except String String :=
  if fs fileName then Except.ok (renderDoc c)
  else Except.error (ioErrorMsg fileName)

/-- Is the type named by the RTTI fallback (no `DEFINE_TYPE` specialization)? -/
def isFallbackNamed : TypeExpr → Bool
  | .prim _ => false
  | _ => true

mutual
/-- Observer for the placement of "name" attributes inside a descriptor
subtree: a node carries a "name" attribute exactly when it is a "primitive"
element, and the same holds recursively for its children. -/
def descNameOk : XmlNode → Bool
  | .elem tag attrs kids =>
      ((first_attribute (.elem tag attrs kids) "name").isSome
          == (tag == "primitive"))
        && descNameOkList kids

/-- List version of `descNameOk`. -/
def descNameOkList : List XmlNode → Bool
  | [] => true
  | k :: ks => descNameOk k && descNameOkList ks
end

/-- One concrete host environment, with the type sizes of a common LP64
platform and a fallback naming that collides on every unregistered type. -/
def env0 : Env where
  rttiName := fun _ => "N1x"
  primSize := fun p =>
    match p with
    | .char => 1 | .shortInt => 2 | .ushortInt => 2 | .int => 4 | .uint => 4
    | .longInt => 8 | .ulongInt => 8 | .longLongInt => 8 | .ulongLongInt => 8
    | .bool => 1 | .float => 4 | .double => 8 | .longDouble => 16
    | .wcharT => 4
  vectorSize := 24
  otherSize := fun _ => 16

/-! ### Helper lemmas about the registration scan -/

theorem entryName_entry (tn : String) (kids : List XmlNode) :
    entryName (XmlNode.elem "data_type" [⟨"name", tn⟩] kids) = some tn := by
  simp [entryName, first_attribute]

theorem hasNameAttr_entry (tn : String) (kids : List XmlNode) :
    hasNameAttr (XmlNode.elem "data_type" [⟨"name", tn⟩] kids) = true := by
  simp [hasNameAttr, first_attribute]

theorem traverse_fst (env : Env) (t : TypeExpr) (c : TypeContainer) :
    (traverse env t c).1 = get_type_name env t := by
  cases hfind : c.rootChildren.find?
      (fun ch => entryName ch == some (get_type_name env t)) with
  | none => simp [traverse, hfind]
  | some x => simp [traverse, hfind]

theorem traverse_found (env : Env) (t : TypeExpr) (c : TypeContainer)
    (h : ∃ e ∈ c.rootChildren,
      (entryName e == some (get_type_name env t)) = true) :
    traverse env t c = (get_type_name env t, c) := by
  cases hfind : c.rootChildren.find?
      (fun ch => entryName ch == some (get_type_name env t)) with
  | none =>
      exfalso
      rw [List.find?_eq_none] at hfind
      obtain ⟨e, he, hp⟩ := h
      exact hfind e he hp
  | some x => simp [traverse, hfind]

theorem traverse_none (env : Env) (t : TypeExpr) (c : TypeContainer)
    (h : c.rootChildren.find?
      (fun ch => entryName ch == some (get_type_name env t)) = none) :
    traverse env t c =
      (get_type_name env t,
       ⟨c.rootChildren ++
        [XmlNode.elem "data_type" [⟨"name", get_type_name env t⟩]
          [add_type_node env t]]⟩) := by
  simp [traverse, h]

theorem traverse_mem (env : Env) (t : TypeExpr) (c : TypeContainer) :
    ∃ e ∈ (traverse env t c).2.rootChildren,
      (entryName e == some (get_type_name env t)) = true := by
  cases hfind : c.rootChildren.find?
      (fun ch => entryName ch == some (get_type_name env t)) with
  | some x =>
      refine ⟨x, ?_, ?_⟩
      · simp [traverse, hfind]
        exact List.mem_of_find?_eq_some hfind
      · have hp := List.find?_some hfind
        exact hp
  | none =>
      rw [traverse_none env t c hfind]
      refine ⟨XmlNode.elem "data_type" [⟨"name", get_type_name env t⟩]
        [add_type_node env t], ?_, ?_⟩
      · simp
      · simp [entryName_entry]

theorem catalogNames_nodup_step (env : Env) (t : TypeExpr) (c : TypeContainer)
    (h : (catalogNames c).Nodup) :
    (catalogNames (traverse env t c).2).Nodup := by
  cases hfind : c.rootChildren.find?
      (fun ch => entryName ch == some (get_type_name env t)) with
  | some x =>
      have : (traverse env t c).2 = c := by simp [traverse, hfind]
      rw [this]; exact h
  | none =>
      rw [traverse_none env t c hfind]
      rw [List.find?_eq_none] at hfind
      simp only [catalogNames, List.map_append, List.map_cons, List.map_nil,
        List.nodup_append] at h ⊢
      refine ⟨h, by simp [entryName_entry], ?_⟩
      intro a ha hb
      simp only [entryName_entry, List.mem_singleton] at hb
      subst hb
      obtain ⟨ch, hch, hev⟩ := List.mem_map.mp ha
      have := hfind ch hch
      simp only [beq_iff_eq] at this
      exact this hev

theorem registerAll_cons (env : Env) (t : TypeExpr) (ts : List TypeExpr)
    (c : TypeContainer) :
    registerAll env (t :: ts) c = registerAll env ts (traverse env t c).2 := rfl

theorem registerAll_nodup (env : Env) :
    ∀ (ts : List TypeExpr) (c : TypeContainer),
      (catalogNames c).Nodup → (catalogNames (registerAll env ts c)).Nodup
  | [], _, h => h
  | t :: ts, c, h =>
      registerAll_nodup env ts (traverse env t c).2
        (catalogNames_nodup_step env t c h)

/-- C1: Deduplication invariant and idempotence of registration: for every
sequence of `ensureRegistered` (`traverse`) calls starting from the fresh
catalog, no two top-level "data_type" entries share a canonical name; and a
second `traverse` with the same type returns the same name and the unchanged
catalog — no second entry, no rebuilt subtree. -/
theorem registration_dedup_and_idempotent (env : Env) (ts : List TypeExpr)
    (t : TypeExpr) (c : TypeContainer) :
    (catalogNames (registerAll env ts TypeContainer.init)).Nodup ∧
    traverse env t (traverse env t c).2 = traverse env t c := by
  constructor
  · exact registerAll_nodup env ts TypeContainer.init (by simp [catalogNames, TypeContainer.init])
  · calc traverse env t (traverse env t c).2
        = (get_type_name env t, (traverse env t c).2) :=
          traverse_found env t _ (traverse_mem env t c)
      _ = ((traverse env t c).1, (traverse env t c).2) := by
          rw [traverse_fst]
      _ = traverse env t c := rfl

/-- C2 counterexample: registering a type whose shape is outside
{Primitive, Vector, Tuple} does not leave the catalog unchanged — an entry
is appended (and no failure occurs, `traverse` is total). -/
theorem unsupported_shape_appends_entry_cex :
    ¬ (traverse env0 (TypeExpr.other 0) TypeContainer.init).2 =
      TypeContainer.init := by
  intro h
  have h2 := congrArg TypeContainer.rootChildren h
  simp [traverse, TypeContainer.init] at h2

/-- C2 amended: registering a type expression outside {Primitive, Vector,
Tuple} does not fail with an UnsupportedType condition; the generic case of
`add_type_node` describes it as a "primitive" leaf carrying the RTTI
fallback name and its own `sizeof` as size, and a complete entry is
appended to the catalog. -/
theorem generic_shape_registered_as_primitive (env : Env) (i : Nat) :
    traverse env (.other i) TypeContainer.init =
      (env.rttiName (.other i),
       ⟨[XmlNode.elem "data_type" [⟨"name", env.rttiName (.other i)⟩]
          [XmlNode.elem "primitive"
            [⟨"name", env.rttiName (.other i)⟩,
             ⟨"size", size_to_char (env.otherSize i)⟩] []]]⟩) := by
  simp [traverse, TypeContainer.init, get_type_name, add_type_node]

/-- C3: registering `Vector<T>` produces a "vector" descriptor node whose
size attribute is the decimal of the byte footprint of the vector handle
type itself (`sizeof(Vector<T>)`, the environment constant `vectorSize`,
independent of the element type and of any element count) and which has
exactly one child descriptor, namely `T`'s descriptor. -/
theorem vector_descriptor_handle_size_single_child (env : Env) (t : TypeExpr) :
    add_type_node env (.vector t) =
      .elem "vector" [⟨"size", size_to_char env.vectorSize⟩]
        [add_type_node env t] ∧
    traverse env (.vector t) TypeContainer.init =
      (get_type_name env (.vector t),
       ⟨[XmlNode.elem "data_type" [⟨"name", get_type_name env (.vector t)⟩]
          [XmlNode.elem "vector" [⟨"size", size_to_char env.vectorSize⟩]
            [add_type_node env t]]]⟩) := by
  constructor
  · rw [add_type_node]
  · rw [traverse_none env (.vector t) TypeContainer.init (by simp [TypeContainer.init])]
    rw [add_type_node]
    rfl

theorem traverse_tuple_eq_map (env : Env) :
    ∀ ts : List TypeExpr, traverse_tuple env ts = ts.map (add_type_node env)
  | [] => rfl
  | t :: ts => by
      rw [traverse_tuple, traverse_tuple_eq_map env ts, List.map_cons]

/-- C4: for a tuple with at least one component, registration produces a
"tuple" descriptor node whose attribute list is empty (no size attribute)
and whose children are exactly the component descriptors, one per
component, in declaration order. -/
theorem tuple_descriptor_ordered_children (env : Env) (ts : List TypeExpr)
    (h : ts ≠ []) :
    add_type_node env (.tuple ts) =
      .elem "tuple" [] (ts.map (add_type_node env)) ∧
    traverse env (.tuple ts) TypeContainer.init =
      (get_type_name env (.tuple ts),
       ⟨[XmlNode.elem "data_type" [⟨"name", get_type_name env (.tuple ts)⟩]
          [XmlNode.elem "tuple" [] (ts.map (add_type_node env))]]⟩) := by
  constructor
  · rw [add_type_node, traverse_tuple_eq_map]
  · rw [traverse_none env (.tuple ts) TypeContainer.init (by simp [TypeContainer.init])]
    rw [add_type_node, traverse_tuple_eq_map]
    rfl

/-- Witness for C4 at the three-component tuple (int, float, bool). -/
theorem tuple_descriptor_ordered_children_witness :
    add_type_node env0 (.tuple [.prim .int, .prim .float, .prim .bool]) =
      .elem "tuple" []
        ([TypeExpr.prim .int, .prim .float, .prim .bool].map
          (add_type_node env0)) ∧
    traverse env0 (.tuple [.prim .int, .prim .float, .prim .bool])
        TypeContainer.init =
      (get_type_name env0 (.tuple [.prim .int, .prim .float, .prim .bool]),
       ⟨[XmlNode.elem "data_type"
          [⟨"name",
            get_type_name env0 (.tuple [.prim .int, .prim .float, .prim .bool])⟩]
          [XmlNode.elem "tuple" []
            ([TypeExpr.prim .int, .prim .float, .prim .bool].map
              (add_type_node env0))]]⟩) :=
  tuple_descriptor_ordered_children env0
    [.prim .int, .prim .float, .prim .bool] (by simp)

theorem primName_injective :
    ∀ p q : PrimKind, primName p = primName q → p = q := by decide

/-- C5: for every primitive kind, `get_type_name` returns the fixed
pre-registered literal, these literals are injective over the enumeration,
and registering the primitive in a fresh catalog yields exactly one
"data_type" entry with that name containing exactly one "primitive" child
whose size attribute is the decimal of the primitive's byte width. -/
theorem primitive_registration_canonical (env : Env) (p q : PrimKind) :
    get_type_name env (.prim p) = primName p ∧
    (primName p = primName q → p = q) ∧
    traverse env (.prim p) TypeContainer.init =
      (primName p,
       ⟨[XmlNode.elem "data_type" [⟨"name", primName p⟩]
          [XmlNode.elem "primitive"
            [⟨"name", primName p⟩, ⟨"size", size_to_char (env.primSize p)⟩]
            []]]⟩) := by
  refine ⟨rfl, primName_injective p q, ?_⟩
  rw [traverse_none env (.prim p) TypeContainer.init (by simp [TypeContainer.init])]
  rw [add_type_node]
  rfl

/-- Witness for C5 at the primitive int in the concrete environment. -/
theorem primitive_registration_canonical_witness :
    get_type_name env0 (.prim .int) = primName .int :=
  (primitive_registration_canonical env0 .int .int).1

/-- C6: if two structurally different type expressions that are named by the
RTTI fallback resolve to the same canonical name, registering the first and
then the second makes the second registration silently reuse the first's
descriptor: it returns the shared name and leaves the catalog unchanged. -/
theorem fallback_name_collision_silent_reuse (env : Env) (t₁ t₂ : TypeExpr)
    (c : TypeContainer) (h₁ : isFallbackNamed t₁ = true)
    (h₂ : isFallbackNamed t₂ = true) (hne : t₁ ≠ t₂)
    (hcol : get_type_name env t₁ = get_type_name env t₂) :
    traverse env t₂ (traverse env t₁ c).2 =
      (get_type_name env t₁, (traverse env t₁ c).2) := by
  have hm := traverse_mem env t₁ c
  rw [hcol] at hm ⊢
  exact traverse_found env t₂ _ hm

/-- Witness for C6: two distinct unregistered types whose fallback names
collide in the concrete environment. -/
theorem fallback_name_collision_silent_reuse_witness :
    traverse env0 (.other 1) (traverse env0 (.other 0) TypeContainer.init).2 =
      (get_type_name env0 (.other 0),
       (traverse env0 (.other 0) TypeContainer.init).2) :=
  fallback_name_collision_silent_reuse env0 (.other 0) (.other 1)
    TypeContainer.init rfl rfl (by simp) rfl

/-- C7: flushing to a destination that cannot be opened for writing fails
with an error that names the offending path, the error text is the path
followed by the fixed report message, and the in-memory catalog is
unaffected: any subsequent flush to a writable path succeeds with the
serialization of the very same catalog, all previously registered entries
included. -/
theorem flush_failure_reports_path_catalog_intact (fs : String → Bool)
    (p : String) (c : TypeContainer) (h : fs p = false) :
    printXML fs p c = .error (ioErrorMsg p) ∧
    ioErrorMsg p = p ++
      ": file could not be opened to write the introspection output. Does the path exists?" ∧
    (∀ fs₂ q, fs₂ q = true → printXML fs₂ q c = .ok (renderDoc c)) := by
  refine ⟨by simp [printXML, h], rfl, ?_⟩
  intro fs₂ q hq
  simp [printXML, hq]

/-- Witness for C7: a failing flush followed by a successful one. -/
theorem flush_failure_reports_path_catalog_intact_witness :
    printXML (fun _ => false) "bad.xml" TypeContainer.init =
      .error (ioErrorMsg "bad.xml") ∧
    printXML (fun _ => true) "good.xml" TypeContainer.init =
      .ok (renderDoc TypeContainer.init) :=
  ⟨(flush_failure_reports_path_catalog_intact (fun _ => false) "bad.xml"
      TypeContainer.init rfl).1,
   (flush_failure_reports_path_catalog_intact (fun _ => false) "bad.xml"
      TypeContainer.init rfl).2.2 (fun _ => true) "good.xml" rfl⟩

theorem renderDoc_init :
    renderDoc TypeContainer.init = preamble ++ "<forsyde_types/>\n" := by
  rw [renderDoc, show TypeContainer.init.rootChildren = [] from rfl, renderNode]
  rfl

/-- C8: flush is deterministic over an unchanged catalog — two flushes of
the same catalog to writable destinations produce identical output — and
flushing a freshly created catalog yields exactly the fixed preamble
followed by the root element with zero children. -/
theorem flush_deterministic_empty_doc (fs₁ fs₂ : String → Bool)
    (p₁ p₂ : String) (c : TypeContainer)
    (h₁ : fs₁ p₁ = true) (h₂ : fs₂ p₂ = true) :
    printXML fs₁ p₁ c = printXML fs₂ p₂ c ∧
    printXML fs₁ p₁ TypeContainer.init =
      .ok (preamble ++ "<forsyde_types/>\n") := by
  constructor
  · simp [printXML, h₁, h₂]
  · simp [printXML, h₁, renderDoc_init]

/-- Witness for C8: two flushes of the fresh catalog. -/
theorem flush_deterministic_empty_doc_witness :
    printXML (fun _ => true) "a.xml" TypeContainer.init =
      printXML (fun _ => true) "b.xml" TypeContainer.init ∧
    printXML (fun _ => true) "a.xml" TypeContainer.init =
      .ok (preamble ++ "<forsyde_types/>\n") :=
  flush_deterministic_empty_doc (fun _ => true) (fun _ => true) "a.xml" "b.xml"
    TypeContainer.init rfl rfl

/-- C9 counterexample: after registering the primitive int, the descriptor
node nested below the top-level entry does carry a "name" attribute, so the
name attribute does not appear only at the top level. -/
theorem nested_name_attr_cex :
    ((traverse env0 (.prim .int) TypeContainer.init).2.rootChildren.any
      (fun e => (nodeChildren e).any hasNameAttr)) = true := by
  rw [traverse_none env0 (.prim .int) TypeContainer.init
    (by simp [TypeContainer.init]), add_type_node]
  simp [nodeChildren, hasNameAttr, first_attribute]

mutual
theorem descNameOk_add (env : Env) :
    ∀ t : TypeExpr, descNameOk (add_type_node env t) = true
  | .prim p => by
      rw [add_type_node, descNameOk]
      simp [first_attribute, descNameOkList]
  | .vector t => by
      have ih := descNameOk_add env t
      rw [add_type_node, descNameOk]
      simp [first_attribute, descNameOkList, ih]
  | .tuple ts => by
      have ih := descNameOkList_traverse_tuple env ts
      rw [add_type_node, descNameOk]
      simp [first_attribute, ih]
  | .other i => by
      rw [add_type_node, descNameOk]
      simp [first_attribute, descNameOkList]

theorem descNameOkList_traverse_tuple (env : Env) :
    ∀ ts : List TypeExpr, descNameOkList (traverse_tuple env ts) = true
  | [] => rfl
  | t :: ts => by
      have ih₁ := descNameOk_add env t
      have ih₂ := descNameOkList_traverse_tuple env ts
      rw [traverse_tuple, descNameOkList]
      simp [ih₁, ih₂]
end

theorem hasNameAttr_all_step (env : Env) (t : TypeExpr) (c : TypeContainer)
    (h : c.rootChildren.all hasNameAttr = true) :
    (traverse env t c).2.rootChildren.all hasNameAttr = true := by
  cases hfind : c.rootChildren.find?
      (fun ch => entryName ch == some (get_type_name env t)) with
  | some x =>
      have hc : (traverse env t c).2 = c := by simp [traverse, hfind]
      rw [hc]; exact h
  | none =>
      rw [traverse_none env t c hfind]
      simp [List.all_append, h, hasNameAttr_entry]

theorem registerAll_hasNameAttr (env : Env) :
    ∀ (ts : List TypeExpr) (c : TypeContainer),
      c.rootChildren.all hasNameAttr = true →
      (registerAll env ts c).rootChildren.all hasNameAttr = true
  | [], _, h => h
  | t :: ts, c, h =>
      registerAll_hasNameAttr env ts _ (hasNameAttr_all_step env t c h)

/-- C9 amended: in every descriptor subtree produced by registration, a node
carries a "name" attribute exactly when it is a "primitive" element — the
generic builder case stamps "name" on primitive descriptor nodes, while
"vector" and "tuple" nodes carry none — and every top-level "data_type"
entry carries the canonical name attribute used for deduplication. -/
theorem name_attr_on_primitive_nodes_only (env : Env) (ts : List TypeExpr)
    (t : TypeExpr) :
    descNameOk (add_type_node env t) = true ∧
    (registerAll env ts TypeContainer.init).rootChildren.all hasNameAttr
      = true :=
  ⟨descNameOk_add env t, registerAll_hasNameAttr env ts TypeContainer.init rfl⟩

theorem digitChar_isDigit (d : Nat) (hd : d < 10) :
    (Nat.digitChar d).isDigit = true := by
  interval_cases d <;> decide

theorem digitChar_toNat (d : Nat) (hd : d < 10) :
    (Nat.digitChar d).toNat - 48 = d := by
  interval_cases d <;> decide

theorem decDigitsRev_isDigit :
    ∀ n, ∀ c ∈ decDigitsRev n, c.isDigit = true := by
  intro n
  induction n using Nat.strong_induction_on with
  | _ n ih =>
    intro c hc
    rw [decDigitsRev] at hc
    split at hc
    · next h =>
        simp only [List.mem_singleton] at hc
        subst hc
        exact digitChar_isDigit n h
    · next h =>
        simp only [List.mem_cons] at hc
        rcases hc with hc | hc
        · subst hc
          exact digitChar_isDigit (n % 10) (Nat.mod_lt _ (by omega))
        · exact ih (n / 10) (Nat.div_lt_self (by omega) (by omega)) c hc

theorem parseSizeLoop_append (l₁ l₂ : List Char) :
    ∀ acc, (∀ c ∈ l₁, c.isDigit = true) →
      parseSizeLoop (l₁ ++ l₂) acc = parseSizeLoop l₂ (parseSizeLoop l₁ acc) := by
  induction l₁ with
  | nil => intro acc _; simp [parseSizeLoop]
  | cons c cs ih =>
      intro acc h
      have hc : c.isDigit = true := h c (by simp)
      simp only [List.cons_append, parseSizeLoop, hc, if_true]
      exact ih _ (fun x hx => h x (by simp [hx]))

theorem parseSizeLoop_decDigits (n : Nat) :
    ∀ acc, parseSizeLoop (decDigitsRev n).reverse acc =
      acc * 10 ^ (decDigitsRev n).length + n := by
  induction n using Nat.strong_induction_on with
  | _ n ih =>
    intro acc
    rw [decDigitsRev]
    by_cases h : n < 10
    · simp only [h, dite_true, List.reverse_singleton, List.length_singleton]
      have h1 := digitChar_isDigit n h
      have h2 := digitChar_toNat n h
      simp [parseSizeLoop, h1, h2]
    · simp only [h, dite_false, List.reverse_cons, List.length_cons]
      rw [parseSizeLoop_append _ _ acc
        (fun c hc => decDigitsRev_isDigit (n / 10) c (List.mem_reverse.mp hc))]
      rw [ih (n / 10) (Nat.div_lt_self (by omega) (by omega)) acc]
      have h1 := digitChar_isDigit (n % 10) (Nat.mod_lt _ (by omega))
      have h2 := digitChar_toNat (n % 10) (Nat.mod_lt _ (by omega))
      simp only [parseSizeLoop, h1, if_true, h2, List.length_reverse]
      have hd : (n / 10) * 10 + n % 10 = n := by omega
      calc (acc * 10 ^ (decDigitsRev (n / 10)).length + n / 10) * 10 + n % 10
          = acc * 10 ^ (decDigitsRev (n / 10)).length * 10 +
              ((n / 10) * 10 + n % 10) := by ring
        _ = acc * 10 ^ ((decDigitsRev (n / 10)).length + 1) + n := by
            rw [hd, pow_succ, Nat.mul_assoc]

/-- C10: size serialization round-trips — for every value of the host's
64-bit size type, parsing the decimal string produced by `size_to_char`
with `char_to_size` gives the value back. -/
theorem size_serialization_roundtrip (n : Nat) (h : n < 2 ^ 64) :
    char_to_size (size_to_char n) = n := by
  have hp := parseSizeLoop_decDigits n 0
  simpa [char_to_size, size_to_char, String.toList] using hp

/-- Witness for C10 at a concrete size value. -/
theorem size_serialization_roundtrip_witness :
    char_to_size (size_to_char 12345) = 12345 :=
  size_serialization_roundtrip 12345 (by norm_num)

end ForSyDe
